import Mathlib

/-!
Shallow embedding of the configuration-resolution core of `git-dive`
(`src/config.rs`) and its pager-command parser (`src/git_pager.rs`).

Conventions of the embedding:
* Rust `anyhow::Result<T>` together with the possibility of a `panic!` /
  `expect` abort is modelled by `Outcome T`, with constructors `ok`, `err`
  (an `anyhow` error value) and `panicked` (an unwinding panic carrying the
  panic message).  `if let Ok(v)` sees `ok`, `unwrap_or` recovers from `err`
  only, and `panicked` always propagates, exactly as panics do in Rust.
* `std::collections::BTreeMap<String, Vec<String>>` is modelled as an
  association list with at most one entry per key; `entry(..).or_insert_with`
  followed by `push` becomes `insertValue`.
* `git2::Config` (the repository / system stores) is an external collaborator;
  it is modelled as an abstract `ConfigSource`, a record of typed getters.
* `PathBuf` is modelled as `String` (the conversion in `get_path` is `into`).
-/

/-- Error values carried by `anyhow::Error` in `src/config.rs`:
`missing` models the `.context("field is missing")` error of
`InMemoryConfig::get_str`; `parseBoolFail s` / `parseIntFail s` model the
`std` parse errors for input text `s`; `context msg e` models
`with_context` wrapping; `storeErr n msg` models errors of the opaque
`git2::Config` sources. -/
inductive CError where
  | missing
  | parseBoolFail (s : String)
  | parseIntFail (s : String)
  | context (msg : String) (e : CError)
  | storeErr (code : Nat) (msg : String)
deriving DecidableEq

/-- Result of running a fallible Rust computation: `ok`/`err` are the two
`Result` variants, `panicked msg` models a `panic!`/`expect` unwind with its
message. -/
inductive Outcome (α : Type) where
  | ok (v : α)
  | err (e : CError)
  | panicked (msg : String)
deriving DecidableEq

namespace Outcome

/-- Models `Result::is_err` (a panic is not an `Err` value). -/
def isErr : Outcome α → Bool
  | .err _ => true
  | _ => false

/-- Models `Result::is_ok`. -/
def isOk : Outcome α → Bool
  | .ok _ => true
  | _ => false

/-- Models `Result::map`. -/
def map (f : α → β) : Outcome α → Outcome β
  | .ok v => .ok (f v)
  | .err e => .err e
  | .panicked m => .panicked m

/-- Models the `with_context` combinator: wrap the error value, leave success and
panics alone. -/
def mapErr (f : CError → CError) : Outcome α → Outcome α
  | .ok v => .ok v
  | .err e => .err (f e)
  | .panicked m => .panicked m

end Outcome

/-- Models `str::parse::<bool>`: exactly the literals `true` and `false` parse. -/
def parseBoolStr (s : String) : Outcome Bool :=
  if s = "true" then .ok true
  else if s = "false" then .ok false
  else .err (.parseBoolFail s)

/-- Accumulator pass of decimal-digit parsing: all characters must be ASCII
digits. -/
def digitsVal : List Char → Nat → Option Nat
  | [], acc => some acc
  | c :: rest, acc =>
    if c.isDigit then digitsVal rest (acc * 10 + (c.toNat - 48)) else none

/-- The shape accepted by `str::parse` for signed integers: an optional `+`/`-` sign
followed by one or more ASCII digits (range checking is done separately per
width). -/
def parseIntStr (s : String) : Option Int :=
  match s.data with
  | [] => none
  | '+' :: rest =>
    if rest.isEmpty then none else (digitsVal rest 0).map Int.ofNat
  | '-' :: rest =>
    if rest.isEmpty then none else (digitsVal rest 0).map fun n => -(Int.ofNat n)
  | cs => (digitsVal cs 0).map Int.ofNat

/-- Models `str::parse::<i32>`: the digit shape plus the `i32` range check (out-of-range is
a parse error in Rust). -/
def parseI32Str (s : String) : Outcome Int :=
  match parseIntStr s with
  | some n => if -(2 ^ 31) ≤ n ∧ n < 2 ^ 31 then .ok n else .err (.parseIntFail s)
  | none => .err (.parseIntFail s)

/-- Models `str::parse::<i64>`: the digit shape plus the `i64` range check. -/
def parseI64Str (s : String) : Outcome Int :=
  match parseIntStr s with
  | some n => if -(2 ^ 63) ≤ n ∧ n < 2 ^ 63 then .ok n else .err (.parseIntFail s)
  | none => .err (.parseIntFail s)

/-- Models `BTreeMap::get` on the association-list model. -/
def lookupValues : List (String × List String) → String → Option (List String)
  | [], _ => none
  | (k, vs) :: rest, key => if k = key then some vs else lookupValues rest key

/-- Models `values.entry(key).or_insert_with(Vec::new).push(value)`: append `v` to
the entry for `k`, creating the entry if absent. -/
def insertValue : List (String × List String) → String → String → List (String × List String)
  | [], k, v => [(k, [v])]
  | (k', vs) :: rest, k, v =>
    if k' = k then (k', vs ++ [v]) :: rest else (k', vs) :: insertValue rest k v

/-- The `InMemoryConfig` struct of `src/config.rs`: a name plus the multi-valued
key map. -/
structure InMemoryConfig where
  name : String
  values : List (String × List String)
deriving DecidableEq

namespace InMemoryConfig

/-- Models `InMemoryConfig::from_env`: fold the `(key, value)` pairs into the map,
appending each value under its key. -/
def from_env (name : String) (env : List (String × String)) : InMemoryConfig :=
  { name := name
    values := env.foldl (fun m p => insertValue m p.1 p.2) [] }

/-- The `Default` impl of `InMemoryConfig`: name `"null"`, empty map. -/
def null : InMemoryConfig := { name := "null", values := [] }

/-- Models `InMemoryConfig::get_str`: the last stored value for the key, a
`"field is missing"` error when the key is absent, and the
`expect("always at least one element")` panic when the stored sequence is
empty. -/
def get_str (c : InMemoryConfig) (name : String) : Outcome String :=
  match lookupValues c.values name with
  | none => .err .missing
  | some l =>
    match l.getLast? with
    | none => .panicked "always at least one element"
    | some v => .ok v

/-- Models `InMemoryConfig::get_bool`:
`self.get_str(name).unwrap_or("true").parse::<bool>()`. -/
def get_bool (c : InMemoryConfig) (name : String) : Outcome Bool :=
  match c.get_str name with
  | .panicked m => .panicked m
  | .err _ => parseBoolStr "true"
  | .ok v => parseBoolStr v

/-- Models `InMemoryConfig::get_i32`:
`self.get_str(name).and_then(|v| v.parse::<i32>())`. -/
def get_i32 (c : InMemoryConfig) (name : String) : Outcome Int :=
  match c.get_str name with
  | .panicked m => .panicked m
  | .err e => .err e
  | .ok v => parseI32Str v

/-- Models `InMemoryConfig::get_i64`:
`self.get_str(name).and_then(|v| v.parse::<i64>())`. -/
def get_i64 (c : InMemoryConfig) (name : String) : Outcome Int :=
  match c.get_str name with
  | .panicked m => .panicked m
  | .err e => .err e
  | .ok v => parseI64Str v

/-- Models `InMemoryConfig::get_string`: `self.get_str(name).map(|v| v.to_owned())`. -/
def get_string (c : InMemoryConfig) (name : String) : Outcome String :=
  (c.get_str name).map id

/-- Models `InMemoryConfig::get_path`: `self.get_string(name).map(|v| v.into())`
(paths modelled as strings). -/
def get_path (c : InMemoryConfig) (name : String) : Outcome String :=
  (c.get_string name).map id

end InMemoryConfig

/-- The `ConfigSource` trait object: a name plus the five typed getters.
The `git2::Config` sources are arbitrary inhabitants of this type. -/
structure ConfigSource where
  name : String
  get_bool : String → Outcome Bool
  get_i32 : String → Outcome Int
  get_i64 : String → Outcome Int
  get_string : String → Outcome String
  get_path : String → Outcome String

/-- The `impl ConfigSource for InMemoryConfig` coercion to a trait object. -/
def InMemoryConfig.toSource (c : InMemoryConfig) : ConfigSource where
  name := c.name
  get_bool := c.get_bool
  get_i32 := c.get_i32
  get_i64 := c.get_i64
  get_string := c.get_string
  get_path := c.get_path

/-- The `Config` struct of `src/config.rs`: optional system and repository stores
(external `git2::Config` handles, abstract here) and the always-present
environment and CLI in-memory stores. -/
structure Config where
  system : Option ConfigSource
  repo : Option ConfigSource
  env : InMemoryConfig
  cli : InMemoryConfig

namespace Config

/-- Models `Config::sources`: `[Some(cli), Some(env), repo, system]` flattened, in
that order. -/
def sources (c : Config) : List ConfigSource :=
  [some c.cli.toSource, some c.env.toSource, c.repo, c.system].filterMap id

end Config

/-- The `for config in self.sources() { if let Ok(v) = ... }` loop: the
first `Ok` result short-circuits, an `Err` moves on to the next source, and
a panic propagates; `none` means every source returned `Err`. -/
def resolveLoop (get : ConfigSource → Outcome α) : List ConfigSource → Option (Outcome α)
  | [] => none
  | s :: rest =>
    match get s with
    | .ok v => some (.ok v)
    | .panicked m => some (.panicked m)
    | .err _ => resolveLoop get rest

/-- The whole body of each composite getter: run the loop; if every source
failed, re-query the first source (`self.sources().next().expect("always a
source")`) and surface its failure. -/
def resolveFirst (get : ConfigSource → Outcome α) (srcs : List ConfigSource) : Outcome α :=
  match resolveLoop get srcs with
  | some r => r
  | none =>
    match srcs with
    | [] => .panicked "always a source"
    | s :: _ => get s

namespace Config

/-- Models `get_bool` of `impl ConfigSource for Config`. -/
def get_bool (c : Config) (name : String) : Outcome Bool :=
  resolveFirst (fun s => s.get_bool name) c.sources

/-- Models `get_i32` of `impl ConfigSource for Config`. -/
def get_i32 (c : Config) (name : String) : Outcome Int :=
  resolveFirst (fun s => s.get_i32 name) c.sources

/-- Models `get_i64` of `impl ConfigSource for Config`. -/
def get_i64 (c : Config) (name : String) : Outcome Int :=
  resolveFirst (fun s => s.get_i64 name) c.sources

/-- Models `get_string` of `impl ConfigSource for Config`. -/
def get_string (c : Config) (name : String) : Outcome String :=
  resolveFirst (fun s => s.get_string name) c.sources

/-- Models `get_path` of `impl ConfigSource for Config`. -/
def get_path (c : Config) (name : String) : Outcome String :=
  resolveFirst (fun s => s.get_path name) c.sources

/-- The composite viewed as a `ConfigSource` trait object (its `name` is
`"git"`). -/
def toSource (c : Config) : ConfigSource where
  name := "git"
  get_bool := c.get_bool
  get_i32 := c.get_i32
  get_i64 := c.get_i64
  get_string := c.get_string
  get_path := c.get_path

end Config

/-- The five types `R` for which `FieldReader<R>` is implemented. -/
inductive FieldTy where
  | bool
  | i32
  | i64
  | string
  | path
deriving DecidableEq

/-- The Lean carrier of each Rust value type (`i32`/`i64` as `Int` with the
range enforced by parsing, `PathBuf` as `String`). -/
def FieldTy.carrier : FieldTy → Type
  | .bool => Bool
  | .i32 => Int
  | .i64 => Int
  | .string => String
  | .path => String

/-- The `FieldReader<R>` impls for `Config`: dispatch on the value type and
wrap any failure with the `"failed to read `<name>`"` context. -/
def Config.get_field (c : Config) (t : FieldTy) (name : String) : Outcome t.carrier :=
  match t with
  | .bool => (c.get_bool name).mapErr (.context ("failed to read `" ++ name ++ "`"))
  | .i32 => (c.get_i32 name).mapErr (.context ("failed to read `" ++ name ++ "`"))
  | .i64 => (c.get_i64 name).mapErr (.context ("failed to read `" ++ name ++ "`"))
  | .string => (c.get_string name).mapErr (.context ("failed to read `" ++ name ++ "`"))
  | .path => (c.get_path name).mapErr (.context ("failed to read `" ++ name ++ "`"))

/-- The `RawField<R>` descriptor: a static name tagged with its value type. -/
structure RawField (t : FieldTy) where
  name : String

/-- Models `RawField::get_from`: `config.get_field(self.name).ok()` — an `Err`
becomes absence, a success presence; a panic would propagate. -/
def RawField.get_from (f : RawField t) (c : Config) : Outcome (Option t.carrier) :=
  match c.get_field t f.name with
  | .ok v => .ok (some v)
  | .err _ => .ok none
  | .panicked m => .panicked m

/-- The `FallbackField<R>` descriptor: a raw field plus the fallback function
`fn(&Config) -> R`. -/
structure FallbackField (t : FieldTy) where
  field : RawField t
  fallback : Config → t.carrier

/-- Models `FallbackField::get_from`:
`self.field.get_from(config).unwrap_or_else(|| (self.fallback)(config))`. -/
def FallbackField.get_from (f : FallbackField t) (c : Config) : Outcome t.carrier :=
  match f.field.get_from c with
  | .ok (some v) => .ok v
  | .ok none => .ok (f.fallback c)
  | .err e => .err e
  | .panicked m => .panicked m

/-- A `&dyn ReflectField` trait object: a name and a renderer of the
resolved value (`field.dump(config)`). -/
structure ReflectFieldD where
  name : String
  dump : Config → String

/-- The one failure of the dumper: `panic!("field `...` is missing a
section")` for a field name without a `.` separator. -/
inductive DumpError where
  | misconfiguredField (name : String)
deriving DecidableEq

/-- Models `str::split_once('.')` on the character list: split at the first `.`,
`none` when there is no `.`. -/
def splitOnceList : List Char → Option (List Char × List Char)
  | [] => none
  | ch :: rest =>
    if ch = '.' then some ([], rest)
    else (splitOnceList rest).map fun p => (ch :: p.1, p.2)

/-- Models `name.split_once('.')` as used by `Config::dump`. -/
def splitOnceDot (s : String) : Option (String × String) :=
  (splitOnceList s.data).map fun p => (⟨p.1⟩, ⟨p.2⟩)

/-- The loop body of `Config::dump`, carrying `prior_section`; each list
element is one `writeln!` call (a line of the output, without its trailing
newline): a `[section]` header exactly when the section changed, then the
indented `key = value` line. -/
def dumpLoop (c : Config) (prior : String) : List ReflectFieldD → Except DumpError (List String)
  | [] => .ok []
  | f :: rest =>
    match splitOnceDot f.name with
    | none => .error (.misconfiguredField f.name)
    | some (sec, key) =>
      let header : List String := if sec = prior then [] else ["[" ++ sec ++ "]"]
      let newPrior := if sec = prior then prior else sec
      match dumpLoop c newPrior rest with
      | .error e => .error e
      | .ok ls => .ok (header ++ ("\t" ++ key ++ " = " ++ f.dump c) :: ls)

/-- Models `Config::dump`: run the loop from the empty `prior_section` and join
the written lines into the output string. -/
def Config.dump (c : Config) (fields : List ReflectFieldD) : Except DumpError String :=
  (dumpLoop c "" fields).map fun ls => String.join (ls.map fun l => l ++ "\n")

/-- The `DEFAULT_ENV` constant of `src/git_pager.rs`. -/
def DEFAULT_ENV : List (String × String) := [("LESS", "FRX"), ("LV", "-c")]

/-- The `REQUIRED_ENV` constant of `src/git_pager.rs`. -/
def REQUIRED_ENV : List (String × String) := [("LESSCHARSET", "UTF-8")]

/-- The observable pieces of the `std::process::Command` built by `parse`:
program, arguments, piped stdin, and the environment assignments made by the
two `cmd.envs` calls (in call order). -/
structure PagerCommand where
  program : String
  args : List String
  stdinPiped : Bool
  envs : List (String × String)
deriving DecidableEq

/-- Models `parse` from `src/git_pager.rs`.  The external `shlex::Shlex`
shell-word splitter is an external collaborator, passed in as `split`;
`ambient` is `std::env::var_os` for the ambient process environment. -/
def parse (split : String → List String) (ambient : String → Option String)
    (args : String) : Option PagerCommand :=
  match split args with
  | [] => none
  | cmd :: rest =>
    if cmd = "cat" then none
    else
      some
        { program := cmd
          args := rest
          stdinPiped := true
          envs := REQUIRED_ENV ++ DEFAULT_ENV.filter fun p => (ambient p.1).isNone }

/-- The subsequence of values inserted under `key` by a pair sequence, in
insertion order (the reference semantics for the multi-valued map). -/
def valuesFor (key : String) (pairs : List (String × String)) : List String :=
  (pairs.filter fun p => p.1 == key).map Prod.snd

/-- How many times the dumper's `section != prior_section` test fires on a
section sequence, starting from `prior`. -/
def sectionChanges (prior : String) : List String → Nat
  | [] => 0
  | s :: rest => (if s = prior then 0 else 1) + sectionChanges s rest

/-- Recognise a `[section]` header line of the dump output (entry lines
start with a tab, never with `[`). -/
def isHeaderLine (l : String) : Bool :=
  match l.data with
  | '[' :: _ => true
  | _ => false

/-- The section part of a field name (text before the first `.`). -/
def fieldSection (f : ReflectFieldD) : String :=
  ((splitOnceDot f.name).map Prod.fst).getD ""

/-- The key part of a field name (text after the first `.`). -/
def fieldKey (f : ReflectFieldD) : String :=
  ((splitOnceDot f.name).map Prod.snd).getD ""

/-- A reflective field rendering the constant text `"v"`, for concrete dump
runs. -/
def exField (nm : String) : ReflectFieldD := ⟨nm, fun _ => "v"⟩

/-- A composite with empty CLI and environment stores and no repository or
system store. -/
def cfg0 : Config :=
  { system := none, repo := none, env := InMemoryConfig.null, cli := InMemoryConfig.null }

/-- A composite where the key `a.b` is present in both the CLI store (text
`"abc"`) and the environment store (text `"1"`) with differing values. -/
def cfgC1 : Config :=
  { system := none
    repo := none
    env := InMemoryConfig.from_env "git-config-env" [("a.b", "1")]
    cli := InMemoryConfig.from_env "git-cli" [("a.b", "abc")] }

/-- A composite built from empty pair sequences: every string lookup fails
in every source. -/
def cfgAllMiss : Config :=
  { system := none
    repo := none
    env := InMemoryConfig.from_env "git-config-env" []
    cli := InMemoryConfig.from_env "git-cli" [] }

/-- A composite whose sources hold unparseable boolean/integer text under
`k`, so every typed bool/int lookup fails in every source. -/
def cfgBadText : Config :=
  { system := none
    repo := none
    env := InMemoryConfig.from_env "git-config-env" [("k", "y")]
    cli := InMemoryConfig.from_env "git-cli" [("k", "x")] }

/-- The store built from the single flag-style pair `("a.flag", "")`. -/
def storeFlag : InMemoryConfig := InMemoryConfig.from_env "git-cli" [("a.flag", "")]

/-- A composite whose CLI store maps `a.b` to `"2"`. -/
def cfgPresent : Config :=
  { system := none
    repo := none
    env := InMemoryConfig.null
    cli := InMemoryConfig.from_env "git-cli" [("a.b", "2")] }

/-- A string-typed fallback field on `a.b` whose fallback renders `"FB"`. -/
def fbField : FallbackField .string := ⟨⟨"a.b"⟩, fun _ => "FB"⟩

theorem lookupValues_insertValue_self (m : List (String × List String)) (k v : String) :
    lookupValues (insertValue m k v) k = some ((lookupValues m k).getD [] ++ [v]) := by
  induction m with
  | nil => simp [insertValue, lookupValues]
  | cons p rest ih =>
    obtain ⟨k', vs⟩ := p
    by_cases h : k' = k
    · subst h
      simp [insertValue, lookupValues]
    · simp [insertValue, lookupValues, h, ih]

theorem lookupValues_insertValue_ne (m : List (String × List String)) (kIns key v : String)
    (h : kIns ≠ key) :
    lookupValues (insertValue m kIns v) key = lookupValues m key := by
  induction m with
  | nil => simp [insertValue, lookupValues, h]
  | cons p rest ih =>
    obtain ⟨k', vs⟩ := p
    by_cases h' : k' = kIns
    · subst h'
      simp [insertValue, lookupValues, h]
    · simp [insertValue, lookupValues, h', ih]

theorem foldl_insert_lookup (key : String) :
    ∀ (pairs : List (String × String)) (m : List (String × List String)),
      lookupValues (pairs.foldl (fun acc p => insertValue acc p.1 p.2) m) key
        = if valuesFor key pairs = [] then lookupValues m key
          else some ((lookupValues m key).getD [] ++ valuesFor key pairs) := by
  intro pairs
  induction pairs with
  | nil => intro m; simp [valuesFor]
  | cons p rest ih =>
    intro m
    obtain ⟨k, v⟩ := p
    simp only [List.foldl_cons]
    rw [ih (insertValue m k v)]
    by_cases hk : k = key
    · subst hk
      have hvf : valuesFor k ((k, v) :: rest) = v :: valuesFor k rest := by
        simp [valuesFor]
      rw [hvf, lookupValues_insertValue_self m k v]
      by_cases hr : valuesFor k rest = []
      · simp [hr]
      · simp [hr]
    · have hvf : valuesFor key ((k, v) :: rest) = valuesFor key rest := by
        simp [valuesFor, hk]
      rw [hvf, lookupValues_insertValue_ne m k key v hk]

theorem from_env_lookup (nm : String) (pairs : List (String × String)) (key : String) :
    lookupValues (InMemoryConfig.from_env nm pairs).values key
      = if valuesFor key pairs = [] then none else some (valuesFor key pairs) := by
  show lookupValues (pairs.foldl (fun acc p => insertValue acc p.1 p.2) []) key = _
  rw [foldl_insert_lookup key pairs []]
  simp [lookupValues]

theorem get_str_absent (m : InMemoryConfig) (key : String)
    (h : lookupValues m.values key = none) : m.get_str key = .err .missing := by
  simp [InMemoryConfig.get_str, h]

theorem get_bool_absent (m : InMemoryConfig) (key : String)
    (h : lookupValues m.values key = none) : m.get_bool key = .ok true := by
  simp [InMemoryConfig.get_bool, get_str_absent m key h, parseBoolStr]

theorem Config.sources_eq (c : Config) :
    c.sources = c.cli.toSource :: c.env.toSource :: [c.repo, c.system].filterMap id := by
  simp [Config.sources]

theorem resolveFirst_head_ok {α : Type} (get : ConfigSource → Outcome α)
    (s : ConfigSource) (rest : List ConfigSource) (v : α) (h : get s = .ok v) :
    resolveFirst get (s :: rest) = .ok v := by
  simp [resolveFirst, resolveLoop, h]

theorem resolveLoop_none_of_all_err {α : Type} (get : ConfigSource → Outcome α)
    (srcs : List ConfigSource) (h : ∀ s ∈ srcs, (get s).isErr = true) :
    resolveLoop get srcs = none := by
  induction srcs with
  | nil => rfl
  | cons s rest ih =>
    have hs := h s (by simp)
    cases hget : get s with
    | ok v => rw [hget] at hs; simp [Outcome.isErr] at hs
    | panicked m => rw [hget] at hs; simp [Outcome.isErr] at hs
    | err e =>
      simp only [resolveLoop, hget]
      exact ih fun t ht => h t (List.mem_cons_of_mem _ ht)

theorem resolveFirst_all_err {α : Type} (get : ConfigSource → Outcome α)
    (s : ConfigSource) (rest : List ConfigSource)
    (h : ∀ t ∈ s :: rest, (get t).isErr = true) :
    resolveFirst get (s :: rest) = get s := by
  simp [resolveFirst, resolveLoop_none_of_all_err get (s :: rest) h]

theorem isHeaderLine_header (s : String) : isHeaderLine ("[" ++ s ++ "]") = true := by
  have hdata : ("[" ++ s ++ "]").data = '[' :: (s.data ++ "]".data) := by
    rw [String.data_append, String.data_append]
    rfl
  rw [isHeaderLine, hdata]
  rfl

theorem isHeaderLine_entry (key v : String) :
    isHeaderLine ("\t" ++ key ++ " = " ++ v) = false := by
  have hdata : ("\t" ++ key ++ " = " ++ v).data
      = '\t' :: ((key.data ++ " = ".data) ++ v.data) := by
    rw [String.data_append, String.data_append, String.data_append]
    rfl
  rw [isHeaderLine, hdata]
  rfl

theorem dumpLoop_cons_some (c : Config) (prior : String) (f : ReflectFieldD)
    (rest : List ReflectFieldD) (sec key : String)
    (hp : splitOnceDot f.name = some (sec, key)) :
    dumpLoop c prior (f :: rest)
      = match dumpLoop c (if sec = prior then prior else sec) rest with
        | .error e => .error e
        | .ok ls =>
          .ok ((if sec = prior then [] else ["[" ++ sec ++ "]"])
            ++ ("\t" ++ key ++ " = " ++ f.dump c) :: ls) := by
  simp [dumpLoop, hp]

theorem dumpLoop_sections (c : Config) (fields : List ReflectFieldD) :
    ∀ prior : String,
      (∀ f ∈ fields, (splitOnceDot f.name).isSome) →
      ∃ lines, dumpLoop c prior fields = .ok lines ∧
        lines.countP (fun l => isHeaderLine l) = sectionChanges prior (fields.map fieldSection) ∧
        lines.filter (fun l => !isHeaderLine l)
          = fields.map (fun f => "\t" ++ fieldKey f ++ " = " ++ f.dump c) := by
  induction fields with
  | nil => intro prior _; exact ⟨[], rfl, by simp [sectionChanges], by simp⟩
  | cons f rest ih =>
    intro prior h
    have hf : (splitOnceDot f.name).isSome := h f (by simp)
    obtain ⟨⟨sec, key⟩, hp⟩ := Option.isSome_iff_exists.mp hf
    have hsec : fieldSection f = sec := by simp [fieldSection, hp]
    have hkey : fieldKey f = key := by simp [fieldKey, hp]
    have hnp : (if sec = prior then prior else sec) = sec := by
      by_cases hsp : sec = prior <;> simp [hsp]
    obtain ⟨ls, hls, hcount, hfilter⟩ :=
      ih (if sec = prior then prior else sec) (fun g hg => h g (List.mem_cons_of_mem _ hg))
    rw [hnp] at hcount
    refine ⟨(if sec = prior then [] else ["[" ++ sec ++ "]"])
        ++ ("\t" ++ key ++ " = " ++ f.dump c) :: ls, ?_, ?_, ?_⟩
    · rw [dumpLoop_cons_some c prior f rest sec key hp, hls]
    · by_cases hsp : sec = prior <;>
        simp [hsp, List.countP_cons, isHeaderLine_entry, isHeaderLine_header, hcount,
          sectionChanges, hsec, List.countP_append, Nat.add_comm]
    · by_cases hsp : sec = prior <;>
        simp [hsp, List.filter_append, List.filter_cons, isHeaderLine_entry,
          isHeaderLine_header, hfilter, hsec, hkey]

theorem dumpLoop_missing_sep (c : Config) (fields : List ReflectFieldD) :
    ∀ prior : String,
      (∃ f ∈ fields, splitOnceDot f.name = none) →
      ∃ n, dumpLoop c prior fields = .error (.misconfiguredField n)
        ∧ splitOnceDot n = none := by
  induction fields with
  | nil => intro prior h; simp at h
  | cons f rest ih =>
    intro prior h
    cases hp : splitOnceDot f.name with
    | none => exact ⟨f.name, by simp [dumpLoop, hp], hp⟩
    | some p =>
      obtain ⟨sec, key⟩ := p
      obtain ⟨g, hg, hgnone⟩ := h
      have hgr : g ∈ rest := by
        rcases List.mem_cons.mp hg with h1 | h1
        · rw [h1, hp] at hgnone; cases hgnone
        · exact h1
      obtain ⟨n, herr, hn⟩ := ih (if sec = prior then prior else sec) ⟨g, hgr, hgnone⟩
      refine ⟨n, ?_, hn⟩
      rw [dumpLoop_cons_some c prior f rest sec key hp, herr]

/-- C1 counterexample: with `a.b` present in both the CLI store (text
`"abc"`) and the environment store (text `"1"`) with differing values, the
composite `get_i32` returns the environment's value `1`, not a value
supplied by the CLI source (whose `get_i32` fails), so the claim as stated
is false. -/
theorem c1_counterexample :
    lookupValues cfgC1.cli.values "a.b" = some ["abc"] ∧
    lookupValues cfgC1.env.values "a.b" = some ["1"] ∧
    ("abc" : String) ≠ "1" ∧
    Config.get_i32 cfgC1 "a.b" = .ok 1 ∧
    (cfgC1.cli.get_i32 "a.b").isErr = true ∧
    cfgC1.cli.get_i32 "a.b" ≠ .ok 1 := by
  decide

/-- C1 (amended): sources are consulted in the fixed order CLI,
environment, repository, system and the first successful result wins, so
whenever the CLI source's typed get itself succeeds the composite returns
exactly the CLI result for every typed get (bool, i32, i64, string, path);
in particular the string and path gets return the CLI's last stored value
whenever the key is present in the CLI store.  When the CLI text fails to
parse at the requested type, a later source's value may be returned
instead. -/
theorem cli_overrides_when_cli_parses (c : Config) (name : String) :
    (∀ v, c.cli.get_bool name = .ok v → Config.get_bool c name = .ok v) ∧
    (∀ v, c.cli.get_i32 name = .ok v → Config.get_i32 c name = .ok v) ∧
    (∀ v, c.cli.get_i64 name = .ok v → Config.get_i64 c name = .ok v) ∧
    (∀ v, c.cli.get_string name = .ok v → Config.get_string c name = .ok v) ∧
    (∀ v, c.cli.get_path name = .ok v → Config.get_path c name = .ok v) ∧
    (∀ l v, lookupValues c.cli.values name = some l → l.getLast? = some v →
      Config.get_string c name = .ok v ∧ Config.get_path c name = .ok v) := by
  have hstr : ∀ l v, lookupValues c.cli.values name = some l → l.getLast? = some v →
      c.cli.get_string name = .ok v := by
    intro l v hl hlast
    simp [InMemoryConfig.get_string, InMemoryConfig.get_str, hl, hlast, Outcome.map]
  have hpath : ∀ l v, lookupValues c.cli.values name = some l → l.getLast? = some v →
      c.cli.get_path name = .ok v := by
    intro l v hl hlast
    simp [InMemoryConfig.get_path, InMemoryConfig.get_string, InMemoryConfig.get_str,
      hl, hlast, Outcome.map]
  refine ⟨?_, ?_, ?_, ?_, ?_, ?_⟩
  · intro v hv
    rw [Config.get_bool, Config.sources_eq c]
    exact resolveFirst_head_ok _ _ _ v hv
  · intro v hv
    rw [Config.get_i32, Config.sources_eq c]
    exact resolveFirst_head_ok _ _ _ v hv
  · intro v hv
    rw [Config.get_i64, Config.sources_eq c]
    exact resolveFirst_head_ok _ _ _ v hv
  · intro v hv
    rw [Config.get_string, Config.sources_eq c]
    exact resolveFirst_head_ok _ _ _ v hv
  · intro v hv
    rw [Config.get_path, Config.sources_eq c]
    exact resolveFirst_head_ok _ _ _ v hv
  · intro l v hl hlast
    constructor
    · rw [Config.get_string, Config.sources_eq c]
      exact resolveFirst_head_ok _ _ _ v (hstr l v hl hlast)
    · rw [Config.get_path, Config.sources_eq c]
      exact resolveFirst_head_ok _ _ _ v (hpath l v hl hlast)

/-- C1 witness: on a composite whose CLI store maps `a.b` to `"2"`, the
composite string and i32 gets return the CLI's value. -/
theorem cli_overrides_when_cli_parses_witness :
    Config.get_string cfgPresent "a.b" = .ok "2" ∧
    Config.get_i32 cfgPresent "a.b" = .ok 2 := by
  have h := cli_overrides_when_cli_parses cfgPresent "a.b"
  exact ⟨h.2.2.2.1 "2" (by decide), h.2.1 2 (by decide)⟩

/-- Shared step for C2: when every source's get fails with an `Err`, the
composite re-queries the first source (the CLI store) and surfaces its
failure. -/
theorem config_resolve_all_err {α : Type} (c : Config) (get : ConfigSource → Outcome α)
    (h : ∀ s ∈ c.sources, (get s).isErr = true) :
    resolveFirst get c.sources = get c.cli.toSource ∧
      (resolveFirst get c.sources).isErr = true := by
  have hs := Config.sources_eq c
  have heq : resolveFirst get c.sources = get c.cli.toSource := by
    rw [hs]
    exact resolveFirst_all_err _ _ _ (hs ▸ h)
  refine ⟨heq, ?_⟩
  rw [heq]
  exact h _ (by rw [hs]; exact List.mem_cons_self _ _)

/-- C2: for each typed get, if every source in the composite fails the
lookup with an error, the composite returns a failure, and that failure is
exactly the failure produced by the first source in the list, the CLI
store. -/
theorem all_sources_fail_first_error (c : Config) (name : String) :
    ((∀ s ∈ c.sources, (s.get_bool name).isErr = true) →
      Config.get_bool c name = c.cli.get_bool name ∧ (Config.get_bool c name).isErr = true) ∧
    ((∀ s ∈ c.sources, (s.get_i32 name).isErr = true) →
      Config.get_i32 c name = c.cli.get_i32 name ∧ (Config.get_i32 c name).isErr = true) ∧
    ((∀ s ∈ c.sources, (s.get_i64 name).isErr = true) →
      Config.get_i64 c name = c.cli.get_i64 name ∧ (Config.get_i64 c name).isErr = true) ∧
    ((∀ s ∈ c.sources, (s.get_string name).isErr = true) →
      Config.get_string c name = c.cli.get_string name ∧
        (Config.get_string c name).isErr = true) ∧
    ((∀ s ∈ c.sources, (s.get_path name).isErr = true) →
      Config.get_path c name = c.cli.get_path name ∧ (Config.get_path c name).isErr = true) :=
  ⟨fun h => config_resolve_all_err c (fun s => s.get_bool name) h,
   fun h => config_resolve_all_err c (fun s => s.get_i32 name) h,
   fun h => config_resolve_all_err c (fun s => s.get_i64 name) h,
   fun h => config_resolve_all_err c (fun s => s.get_string name) h,
   fun h => config_resolve_all_err c (fun s => s.get_path name) h⟩

/-- C2 witness: on a composite with empty CLI and environment stores and no
repository or system store, every string lookup fails and the composite
surfaces the CLI store's failure. -/
theorem all_sources_fail_first_error_witness :
    Config.get_string cfgAllMiss "a.b" = cfgAllMiss.cli.get_string "a.b" ∧
    (Config.get_string cfgAllMiss "a.b").isErr = true := by
  apply (all_sources_fail_first_error cfgAllMiss "a.b").2.2.2.1
  intro s hs
  simp [Config.sources, cfgAllMiss] at hs
  rcases hs with rfl | rfl <;> decide

/-- C3: a store built by `from_env` from `[("a.b","1"), ("a.b","2")]`
returns `"2"` for `get_string("a.b")`; in general construction appends
duplicate-key values in insertion order (the stored sequence for a key is
exactly the values given for that key, in order), and the string, path and
integer lookups all read the last inserted value. -/
theorem from_env_last_value_wins :
    ((InMemoryConfig.from_env "x" [("a.b", "1"), ("a.b", "2")]).get_string "a.b" = .ok "2") ∧
    (∀ (nm key : String) (pairs : List (String × String)),
      valuesFor key pairs ≠ [] →
      ∃ v, (valuesFor key pairs).getLast? = some v ∧
        lookupValues (InMemoryConfig.from_env nm pairs).values key
          = some (valuesFor key pairs) ∧
        (InMemoryConfig.from_env nm pairs).get_str key = .ok v ∧
        (InMemoryConfig.from_env nm pairs).get_string key = .ok v ∧
        (InMemoryConfig.from_env nm pairs).get_path key = .ok v ∧
        (InMemoryConfig.from_env nm pairs).get_i32 key = parseI32Str v ∧
        (InMemoryConfig.from_env nm pairs).get_i64 key = parseI64Str v) := by
  constructor
  · decide
  · intro nm key pairs hne
    have hlook := from_env_lookup nm pairs key
    rw [if_neg hne] at hlook
    refine ⟨(valuesFor key pairs).getLast hne, List.getLast?_eq_getLast _ hne, hlook,
      ?_, ?_, ?_, ?_, ?_⟩
    · simp [InMemoryConfig.get_str, hlook, List.getLast?_eq_getLast _ hne]
    · simp [InMemoryConfig.get_string, InMemoryConfig.get_str, hlook,
        List.getLast?_eq_getLast _ hne, Outcome.map]
    · simp [InMemoryConfig.get_path, InMemoryConfig.get_string, InMemoryConfig.get_str,
        hlook, List.getLast?_eq_getLast _ hne, Outcome.map]
    · simp [InMemoryConfig.get_i32, InMemoryConfig.get_str, hlook,
        List.getLast?_eq_getLast _ hne]
    · simp [InMemoryConfig.get_i64, InMemoryConfig.get_str, hlook,
        List.getLast?_eq_getLast _ hne]

/-- C3 witness: the general last-value-wins statement instantiated at the
pair sequence `[("a.b","1"), ("a.b","2")]`. -/
theorem from_env_last_value_wins_witness :
    ∃ v, (valuesFor "a.b" [("a.b", "1"), ("a.b", "2")]).getLast? = some v ∧
      lookupValues (InMemoryConfig.from_env "x" [("a.b", "1"), ("a.b", "2")]).values "a.b"
        = some (valuesFor "a.b" [("a.b", "1"), ("a.b", "2")]) ∧
      (InMemoryConfig.from_env "x" [("a.b", "1"), ("a.b", "2")]).get_str "a.b" = .ok v ∧
      (InMemoryConfig.from_env "x" [("a.b", "1"), ("a.b", "2")]).get_string "a.b" = .ok v ∧
      (InMemoryConfig.from_env "x" [("a.b", "1"), ("a.b", "2")]).get_path "a.b" = .ok v ∧
      (InMemoryConfig.from_env "x" [("a.b", "1"), ("a.b", "2")]).get_i32 "a.b" = parseI32Str v ∧
      (InMemoryConfig.from_env "x" [("a.b", "1"), ("a.b", "2")]).get_i64 "a.b" = parseI64Str v :=
  from_env_last_value_wins.2 "x" "a.b" [("a.b", "1"), ("a.b", "2")] (by decide)

/-- C4 counterexample: for the store built from the flag-style pair
`[("a.flag","")]`, `get_bool("a.flag")` does not return `true`: the stored
empty text fails to parse as a boolean, so the lookup fails. -/
theorem flag_empty_value_counterexample :
    storeFlag.get_bool "a.flag" = .err (.parseBoolFail "") ∧
    storeFlag.get_bool "a.flag" ≠ .ok true ∧
    storeFlag.get_string "a.flag" = .ok "" := by
  decide

/-- C4 (amended): for the store built from `[("a.flag","")]`,
`get_bool("a.flag")` returns an unparseable-boolean failure rather than
`true`, while `get_string("a.flag")` returns the empty string.  It is a key
that is entirely absent from the store that reads as boolean `true` (the
missing text defaults to the literal `"true"`), while string, integer and
path requests for an absent key fail with the missing-field error. -/
theorem flag_empty_value_amended :
    (storeFlag.get_bool "a.flag" = .err (.parseBoolFail "")) ∧
    (storeFlag.get_string "a.flag" = .ok "") ∧
    (∀ (m : InMemoryConfig) (key : String), lookupValues m.values key = none →
      m.get_bool key = .ok true ∧ m.get_string key = .err .missing ∧
      m.get_i32 key = .err .missing ∧ m.get_i64 key = .err .missing ∧
      m.get_path key = .err .missing) := by
  refine ⟨by decide, by decide, ?_⟩
  intro m key h
  have hstr := get_str_absent m key h
  exact ⟨get_bool_absent m key h,
    by simp [InMemoryConfig.get_string, hstr, Outcome.map],
    by simp [InMemoryConfig.get_i32, hstr],
    by simp [InMemoryConfig.get_i64, hstr],
    by simp [InMemoryConfig.get_path, InMemoryConfig.get_string, hstr, Outcome.map]⟩

/-- C4 witness: the absent-key clause instantiated at the empty store. -/
theorem flag_empty_value_amended_witness :
    InMemoryConfig.null.get_bool "k" = .ok true ∧
    InMemoryConfig.null.get_string "k" = .err .missing ∧
    InMemoryConfig.null.get_i32 "k" = .err .missing ∧
    InMemoryConfig.null.get_i64 "k" = .err .missing ∧
    InMemoryConfig.null.get_path "k" = .err .missing :=
  flag_empty_value_amended.2.2 InMemoryConfig.null "k" rfl

/-- C5: `FallbackField::get` returns the underlying raw field's value,
independently of the fallback function (so the fallback is never consulted),
whenever the raw field resolves to a present value; and it returns the
fallback function applied to the same composite whenever the raw field
resolves to absent. -/
theorem fallback_field_raw_then_fallback (t : FieldTy) (f : FallbackField t) (c : Config) :
    (∀ v, f.field.get_from c = .ok (some v) →
      f.get_from c = .ok v ∧
      ∀ g : Config → t.carrier, FallbackField.get_from ⟨f.field, g⟩ c = .ok v) ∧
    (f.field.get_from c = .ok none → f.get_from c = .ok (f.fallback c)) := by
  constructor
  · intro v hv
    constructor
    · simp [FallbackField.get_from, hv]
    · intro g
      simp [FallbackField.get_from, hv]
  · intro h
    simp [FallbackField.get_from, h]

/-- C5 witness: with `a.b` present in the CLI store as `"2"`, the fallback
field resolves to `"2"` under any fallback function; with the key absent
everywhere, it resolves to the fallback's result `"FB"`. -/
theorem fallback_field_raw_then_fallback_witness :
    FallbackField.get_from fbField cfgPresent = .ok "2" ∧
    FallbackField.get_from ⟨fbField.field, fun _ => "OTHER"⟩ cfgPresent = .ok "2" ∧
    FallbackField.get_from fbField cfg0 = .ok "FB" := by
  have h1 := (fallback_field_raw_then_fallback .string fbField cfgPresent).1 "2" rfl
  have h2 := (fallback_field_raw_then_fallback .string fbField cfg0).2 rfl
  exact ⟨h1.1, h1.2 _, h2⟩

/-- C6: for fields whose names all contain a `.`, the dumper succeeds and
emits one `[section]` header line exactly each time the section of the
current field differs from the section of the previous field (starting from
an empty current section), with one indented `key = value` line per field in
the given order (no sorting, no deduplication); dumping
`["x.a","x.b","y.c"]` yields two header emissions and
`["x.a","y.c","x.b"]` yields three. -/
theorem dump_headers_on_section_change :
    (∀ (c : Config) (fields : List ReflectFieldD),
      (∀ f ∈ fields, (splitOnceDot f.name).isSome) →
      ∃ lines, dumpLoop c "" fields = .ok lines ∧
        lines.countP (fun l => isHeaderLine l)
          = sectionChanges "" (fields.map fieldSection) ∧
        lines.filter (fun l => !isHeaderLine l)
          = fields.map (fun f => "\t" ++ fieldKey f ++ " = " ++ f.dump c)) ∧
    (dumpLoop cfg0 "" [exField "x.a", exField "x.b", exField "y.c"]
      = .ok ["[x]", "\ta = v", "\tb = v", "[y]", "\tc = v"]) ∧
    (["[x]", "\ta = v", "\tb = v", "[y]", "\tc = v"].countP (fun l => isHeaderLine l) = 2) ∧
    (dumpLoop cfg0 "" [exField "x.a", exField "y.c", exField "x.b"]
      = .ok ["[x]", "\ta = v", "[y]", "\tc = v", "[x]", "\tb = v"]) ∧
    (["[x]", "\ta = v", "[y]", "\tc = v", "[x]", "\tb = v"].countP
        (fun l => isHeaderLine l) = 3) := by
  refine ⟨fun c fields h => dumpLoop_sections c fields "" h, ?_, by decide, ?_, by decide⟩
  · rfl
  · rfl

/-- C6 witness: the general header-counting statement instantiated at a
one-field list. -/
theorem dump_headers_on_section_change_witness :
    ∃ lines, dumpLoop cfg0 "" [exField "s.k"] = .ok lines ∧
      lines.countP (fun l => isHeaderLine l)
        = sectionChanges "" ([exField "s.k"].map fieldSection) ∧
      lines.filter (fun l => !isHeaderLine l)
        = [exField "s.k"].map (fun f => "\t" ++ fieldKey f ++ " = " ++ f.dump cfg0) :=
  dump_headers_on_section_change.1 cfg0 [exField "s.k"] (by
    intro f hf
    simp only [List.mem_singleton] at hf
    subst hf
    decide)

/-- C7: a field list containing a field whose name has no `.` separator
makes the dumper fail with the misconfigured-field panic (carrying some
dotless field name) instead of producing output. -/
theorem dump_fails_on_missing_separator (c : Config) (fields : List ReflectFieldD)
    (h : ∃ f ∈ fields, splitOnceDot f.name = none) :
    ∃ n, dumpLoop c "" fields = .error (.misconfiguredField n) ∧ splitOnceDot n = none ∧
      Config.dump c fields = .error (.misconfiguredField n) := by
  obtain ⟨n, herr, hn⟩ := dumpLoop_missing_sep c fields "" h
  exact ⟨n, herr, hn, by simp [Config.dump, herr, Except.map]⟩

/-- C7 witness: the dumper fails on the field list `["nodot"]`. -/
theorem dump_fails_on_missing_separator_witness :
    ∃ n, dumpLoop cfg0 "" [exField "nodot"] = .error (.misconfiguredField n) ∧
      splitOnceDot n = none ∧
      Config.dump cfg0 [exField "nodot"] = .error (.misconfiguredField n) :=
  dump_fails_on_missing_separator cfg0 [exField "nodot"]
    ⟨exField "nodot", List.mem_singleton.mpr rfl, by decide⟩

/-- C8: the pager parser shell-word-splits the command line (the splitter
is the external `shlex` collaborator); a resulting command name that is the
literal `"cat"` produces no pager command; otherwise it builds a command
running that program with the remaining words, a piped stdin, the always-set
`LESSCHARSET=UTF-8`, and each default variable (`LESS=FRX`, `LV=-c`) set
exactly when that variable is not already present in the ambient
environment. -/
theorem pager_parse_contract (split : String → List String)
    (ambient : String → Option String) (s : String) :
    (∀ rest, split s = "cat" :: rest → parse split ambient s = none) ∧
    (∀ cmd rest, split s = cmd :: rest → cmd ≠ "cat" →
      ∃ pc, parse split ambient s = some pc ∧
        pc.program = cmd ∧ pc.args = rest ∧ pc.stdinPiped = true ∧
        (("LESSCHARSET", "UTF-8") ∈ pc.envs) ∧
        ((("LESS", "FRX") ∈ pc.envs) ↔ ambient "LESS" = none) ∧
        ((("LV", "-c") ∈ pc.envs) ↔ ambient "LV" = none)) := by
  constructor
  · intro rest hsplit
    simp [parse, hsplit]
  · intro cmd rest hsplit hne
    refine ⟨⟨cmd, rest, true, REQUIRED_ENV ++ DEFAULT_ENV.filter (fun p => (ambient p.1).isNone)⟩,
      by simp [parse, hsplit, hne], rfl, rfl, rfl, ?_, ?_, ?_⟩
    · simp [REQUIRED_ENV]
    · cases hL : ambient "LESS" <;>
        simp [REQUIRED_ENV, DEFAULT_ENV, List.mem_filter, hL]
    · cases hV : ambient "LV" <;>
        simp [REQUIRED_ENV, DEFAULT_ENV, List.mem_filter, hV]

/-- C8 witness: with `LESS` set in the ambient environment and `LV` unset,
parsing a `less -R` pager line yields a command that sets `LESSCHARSET` and
`LV` but not `LESS`; a `cat` line yields no command. -/
theorem pager_parse_contract_witness :
    parse (fun x => [x]) (fun _ => none) "cat" = none ∧
    (∃ pc,
      parse (fun _ => ["less", "-R"]) (fun k => if k = "LESS" then some "x" else none)
          "less -R" = some pc ∧
        pc.program = "less" ∧ pc.args = ["-R"] ∧ pc.stdinPiped = true ∧
        (("LESSCHARSET", "UTF-8") ∈ pc.envs) ∧
        ((("LESS", "FRX") ∈ pc.envs) ↔
          (fun k => if k = "LESS" then some "x" else none) "LESS" = none) ∧
        ((("LV", "-c") ∈ pc.envs) ↔
          (fun k => if k = "LESS" then some "x" else none) "LV" = none)) := by
  constructor
  · exact (pager_parse_contract (fun x => [x]) (fun _ => none) "cat").1 [] rfl
  · exact (pager_parse_contract (fun _ => ["less", "-R"])
      (fun k => if k = "LESS" then some "x" else none) "less -R").2 "less" ["-R"] rfl
      (by decide)

/-- C9: every value sequence stored by `from_env` is non-empty, so
`get_str` on such a store never hits its "always at least one element"
expectation: it returns either the last stored value or the missing-field
failure, never a panic. -/
theorem from_env_get_str_total (nm : String) (pairs : List (String × String)) (key : String) :
    (∀ l, lookupValues (InMemoryConfig.from_env nm pairs).values key = some l → l ≠ []) ∧
    ((InMemoryConfig.from_env nm pairs).get_str key = .err .missing ∨
      ∃ v, (InMemoryConfig.from_env nm pairs).get_str key = .ok v) ∧
    (∀ msg, (InMemoryConfig.from_env nm pairs).get_str key ≠ .panicked msg) := by
  have hlook := from_env_lookup nm pairs key
  by_cases hvf : valuesFor key pairs = []
  · rw [if_pos hvf] at hlook
    have hmiss := get_str_absent _ _ hlook
    refine ⟨?_, Or.inl hmiss, ?_⟩
    · intro l hl
      rw [hlook] at hl
      cases hl
    · intro msg hcon
      rw [hmiss] at hcon
      cases hcon
  · rw [if_neg hvf] at hlook
    have hok : (InMemoryConfig.from_env nm pairs).get_str key
        = .ok ((valuesFor key pairs).getLast hvf) := by
      simp [InMemoryConfig.get_str, hlook, List.getLast?_eq_getLast _ hvf]
    refine ⟨?_, Or.inr ⟨_, hok⟩, ?_⟩
    · intro l hl
      rw [hlook] at hl
      injection hl with h
      rw [← h]
      exact hvf
    · intro msg hcon
      rw [hok] at hcon
      cases hcon

/-- C9 witness: the no-panic and non-empty-sequence facts instantiated at a
one-pair store. -/
theorem from_env_get_str_total_witness :
    (InMemoryConfig.from_env "t" [("a.b", "1")]).get_str "a.b"
        ≠ .panicked "always at least one element" ∧
    (["1"] : List String) ≠ [] :=
  ⟨(from_env_get_str_total "t" [("a.b", "1")] "a.b").2.2 _,
   (from_env_get_str_total "t" [("a.b", "1")] "a.b").1 ["1"] (by decide)⟩

/-- C10: `InMemoryConfig::get_bool` returns `Ok(true)` for every key absent
from the store's map (the missing text defaults to `"true"`), so the
composite's `get_bool` returns `Ok(true)` for every key absent from the CLI
store, regardless of what any lower-precedence source holds. -/
theorem absent_key_get_bool_true :
    (∀ (m : InMemoryConfig) (key : String),
      lookupValues m.values key = none → m.get_bool key = .ok true) ∧
    (∀ (c : Config) (key : String),
      lookupValues c.cli.values key = none → Config.get_bool c key = .ok true) := by
  refine ⟨get_bool_absent, ?_⟩
  intro c key h
  rw [Config.get_bool, Config.sources_eq c]
  exact resolveFirst_head_ok _ _ _ true (get_bool_absent c.cli key h)

/-- C10 witness: with the key absent from the CLI store, both the store
and the whole composite report `Ok(true)`. -/
theorem absent_key_get_bool_true_witness :
    InMemoryConfig.null.get_bool "missing.key" = .ok true ∧
    Config.get_bool cfg0 "missing.key" = .ok true :=
  ⟨absent_key_get_bool_true.1 InMemoryConfig.null "missing.key" rfl,
   absent_key_get_bool_true.2 cfg0 "missing.key" rfl⟩
